import Mathlib

/-!
Verification of the incremental result aggregation controller of the
Amazon Deals frontend (src/src/App.js): deduplicating merge, pagination
state machine, highlight tracker, bootstrap sequencer and view
projection, shallowly embedded as executable Lean definitions.
-/

namespace AmazonDeals

/-- JavaScript string disjunction `a || b`: the first operand unless it is
falsy (the empty string), else the second. -/
def strOr (a b : String) : String := if a = "" then b else a

/-- Whitespace characters removed by JavaScript `trim()` (the ones that
occur in practice). -/
def isJsSpace (c : Char) : Bool :=
  c = ' ' || c = '\t' || c = '\n' || c = '\r'

/-- JavaScript `keyword.trim()`: strip leading and trailing whitespace. -/
def jsTrim (s : String) : String :=
  ⟨(((s.data.dropWhile isJsSpace).reverse.dropWhile isJsSpace).reverse)⟩

/-- A search-result record, restricted to the fields the aggregation
controller reads: the identity-key candidates (`asin`, `url`, `title`),
the numeric `discount`, the four coupon-code aliases, the locally
assigned `id` and the patched `rewritten` text. -/
structure Deal where
  asin : String := ""
  url : String := ""
  title : String := ""
  discount : Int := 0
  code : String := ""
  couponCode : String := ""
  promoCode : String := ""
  coupon : String := ""
  id : Nat := 0
  rewritten : String := ""
  deriving Repr, DecidableEq

/-- Dynamic property access `p[dedupeKey]` for the identity-key field
names; any other name reads `undefined`, which is falsy. -/
def fieldOf (d : Deal) (k : String) : String :=
  if k = "asin" then d.asin
  else if k = "url" then d.url
  else if k = "title" then d.title
  else ""

/-- The identity-key selector `p[dedupeKey] || p.asin || p.url || p.title`
used by both merge paths (App.js lines 110 and 169). -/
def dealKey (k : String) (d : Deal) : String :=
  strOr (fieldOf d k) (strOr d.asin (strOr d.url d.title))

/-- The `existingKeys` set built from the previous collection
(App.js lines 109-111 and 168-170): one key per existing deal. -/
def existingKeys (k : String) (prev : List Deal) : List String :=
  prev.map (dealKey k)

/-- The `uniqueNew` filter of both merge paths (App.js lines 112-115 and
171-174): keep a candidate when its key is truthy and not contained in
the snapshot of existing keys. The snapshot is not extended while
candidates are scanned. -/
def uniqueNew (k : String) (prev : List Deal) (newDeals : List Deal) : List Deal :=
  newDeals.filter (fun n =>
    dealKey k n != "" && !((existingKeys k prev).contains (dealKey k n)))

/-- Coupon-code alias fallthrough
`deal.code || deal.couponCode || deal.promoCode || deal.coupon || ''`
(App.js line 207). -/
def getDealCode (d : Deal) : String :=
  strOr d.code (strOr d.couponCode (strOr d.promoCode d.coupon))

/-- The view filter (App.js lines 325-329): drop deals below the minimum
discount, and when `showOnlyWithCodes` is set also drop deals without a
coupon code. -/
def filteredDeals (deals : List Deal) (minDiscount : Int)
    (showOnlyWithCodes : Bool) : List Deal :=
  deals.filter (fun d =>
    if d.discount < minDiscount then false
    else if showOnlyWithCodes && getDealCode d == "" then false
    else true)

/-- The display projection `filtered.slice(0, maxResults)` (App.js
line 330). -/
def displayedDeals (filtered : List Deal) (maxResults : Nat) : List Deal :=
  filtered.take maxResults

/-- State of the highlight tracker: the `lastAddedIds` array, the
`lastAddedTimerRef` cell, and bookkeeping of which timeout ids have been
scheduled (ids below `nextTimerId`), cancelled via `clearTimeout`, or
have already fired. -/
structure HighlightTracker where
  lastAddedIds : List Nat := []
  timerRef : Option Nat := none
  nextTimerId : Nat := 0
  cancelled : List Nat := []
  fired : List Nat := []
  deriving Repr, DecidableEq

/-- The mark step shared by both merge paths (App.js lines 117-121 and
178-182): when the batch of added ids is non-empty, replace
`lastAddedIds` with the batch, `clearTimeout` the remembered timer if
any, and store a fresh 10-second timeout in the ref; an empty batch does
nothing. -/
def markNew (h : HighlightTracker) (ids : List Nat) : HighlightTracker :=
  if ids.length > 0 then
    { lastAddedIds := ids
      timerRef := some h.nextTimerId
      nextTimerId := h.nextTimerId + 1
      cancelled := match h.timerRef with
        | some t => t :: h.cancelled
        | none => h.cancelled
      fired := h.fired }
  else h

/-- A timeout id can fire when it was scheduled, was not cancelled by
`clearTimeout`, and has not fired yet. -/
def canFire (h : HighlightTracker) (t : Nat) : Bool :=
  t < h.nextTimerId && !h.cancelled.contains t && !h.fired.contains t

/-- Expiry of timeout `t`: when it can fire, its callback
`setLastAddedIds([])` clears the highlight set unconditionally. -/
def fireTimer (h : HighlightTracker) (t : Nat) : HighlightTracker :=
  if canFire h t then { h with lastAddedIds := [], fired := t :: h.fired }
  else h

/-- Membership in the highlight set (`lastAddedIds.includes(deal.id)`,
App.js line 755). -/
def isHighlighted (h : HighlightTracker) (i : Nat) : Bool :=
  h.lastAddedIds.contains i

/-- At most one pending expiry timer: every scheduled timeout that can
still fire is the one remembered in the ref. Stated over the bounded
range of scheduled ids so that it is decidable on concrete states. -/
def AtMostOnePending (h : HighlightTracker) : Prop :=
  ∀ t ∈ List.range h.nextTimerId, canFire h t = true → h.timerRef = some t

instance (h : HighlightTracker) : Decidable (AtMostOnePending h) :=
  List.decidableBAll _ _

/-- Outcome of one `fetch` of the search endpoint, as the controller
observes it: either the transport (or JSON parsing) throws, or a parsed
response arrives carrying the transport-success bit `ok`, the body's
`success` flag, the deals array and an error string. -/
inductive FetchOutcome where
  | throws (msg : String)
  | response (ok : Bool) (success : Bool) (deals : List Deal) (errMsg : String)
  deriving Repr, DecidableEq

/-- The payload posted to `/api/search` (App.js lines 74-80 and
152-158). -/
structure SearchRequest where
  keyword : String
  minDiscount : Int
  page : Nat
  pageSize : Nat
  debugPromotions : Bool
  deriving Repr, DecidableEq

/-- The controller's state: the raw collection and the React state
variables that the aggregation logic reads or writes, plus a counter
supplying fresh local ids (modelling `Date.now() + Math.random()`). -/
structure AppState where
  deals : List Deal := []
  minDiscount : Int := 20
  loading : Bool := false
  error : String := ""
  dedupeKey : String := "asin"
  highlight : HighlightTracker := {}
  serverPage : Nat := 1
  serverPageSize : Nat := 30
  isLoadingMore : Bool := false
  lastKeyword : String := ""
  noMorePages : Bool := false
  debugPromotions : Bool := false
  showOnlyWithCodes : Bool := false
  maxResults : Nat := 1000
  nextLocalId : Nat := 0
  deriving Repr, DecidableEq

/-- Attach fresh local ids to an incoming deals array
(`data.deals.map(d =&gt; ({...d, id: Date.now() + Math.random()}))`). -/
def assignIds (start : Nat) (ds : List Deal) : List Deal :=
  ds.enum.map (fun p => { p.2 with id := start + p.1 })

/-- The fresh-search path `searchProductsWithKeyword` (App.js lines
63-133): validate the keyword, issue the page-1 request, and on a parsed
`success` response prepend the deduplicated batch and mark it; any
failure sets the error message and merges nothing. Returns the new state
and the request issued, if any. -/
def searchProductsWithKeyword (s : AppState) (keyword : String)
    (outcome : FetchOutcome) : AppState × Option SearchRequest :=
  let s0 := { s with loading := true, error := "" }
  if jsTrim keyword = "" then
    ({ s0 with error := "❌ Keyword cannot be empty", loading := false }, none)
  else
    let req : SearchRequest :=
      { keyword := jsTrim keyword, minDiscount := s.minDiscount, page := 1,
        pageSize := 30, debugPromotions := s.debugPromotions }
    match outcome with
    | .throws msg =>
        ({ s0 with error := "❌ Cannot connect to server: " ++ msg,
                   loading := false }, some req)
    | .response ok success ds errMsg =>
        if !ok then
          ({ s0 with error := "❌ " ++ strOr errMsg "Unknown error from server",
                     loading := false }, some req)
        else if success then
          let s1 := { s0 with lastKeyword := keyword, serverPage := 1,
                              noMorePages := false }
          let newDeals := assignIds s1.nextLocalId ds
          let uniq := uniqueNew s1.dedupeKey s1.deals newDeals
          ({ s1 with deals := uniq ++ s1.deals,
                     highlight := markNew s1.highlight (uniq.map Deal.id),
                     nextLocalId := s1.nextLocalId + ds.length,
                     loading := false }, some req)
        else
          ({ s0 with error := "❌ " ++ strOr errMsg "Failed to fetch deals",
                     loading := false }, some req)

/-- The pagination path `loadMoreFromServer` (App.js lines 144-201):
no-op behind the `isLoadingMore || noMorePages` guard; otherwise issue
the next-page request, and when the parsed body has `success` append the
deduplicated batch, set `noMorePages` when the batch deduplicates to
nothing, mark the added ids, and set `serverPage` to the requested page;
the transport status is never inspected, a thrown error is only logged,
and `isLoadingMore` is cleared at the end. -/
def loadMoreFromServer (s : AppState) (outcome : FetchOutcome) :
    AppState × Option SearchRequest :=
  if s.isLoadingMore || s.noMorePages then (s, none)
  else
    let nextPage := s.serverPage + 1
    let req : SearchRequest :=
      { keyword := s.lastKeyword, minDiscount := s.minDiscount,
        page := nextPage, pageSize := s.serverPageSize,
        debugPromotions := s.debugPromotions }
    let s0 := { s with isLoadingMore := true }
    let s1 :=
      match outcome with
      | .throws _ => s0
      | .response _ success ds _ =>
          if success then
            let newDeals := assignIds s0.nextLocalId ds
            let uniq := uniqueNew s0.dedupeKey s0.deals newDeals
            { s0 with deals := s0.deals ++ uniq,
                      noMorePages := if uniq.length = 0 then true
                                     else s0.noMorePages,
                      highlight := markNew s0.highlight (uniq.map Deal.id),
                      nextLocalId := s0.nextLocalId + ds.length,
                      serverPage := nextPage }
          else s0
    ({ s1 with isLoadingMore := false }, some req)

/-- The dependency tuple of the `searchProductsWithKeyword` `useCallback`
(App.js line 132): the memoised callback gets a new identity whenever one
of these changes between renders. -/
structure SearchCallbackDeps where
  minDiscount : Int
  apiBase : String
  dedupeKey : String
  debugPromotions : Bool
  deriving Repr, DecidableEq

/-- The seed keywords of the bootstrap sequence (App.js line 288). -/
def seedKeywords : List String := ["electronics", "home kitchen", "wireless"]

/-- Number of renders at which the dependency differs from the previous
render's value. -/
def countDepChanges : SearchCallbackDeps → List SearchCallbackDeps → Nat
  | _, [] => 0
  | prev, d :: rest => (if d = prev then 0 else 1) + countDepChanges d rest

/-- How many times the auto-load effect (App.js lines 286-299) runs over
a render sequence, by React semantics: once at mount, and once more at
every render where its dependency — the identity of
`searchProductsWithKeyword` — differs from the previous render. -/
def autoLoadEffectRuns : List SearchCallbackDeps → Nat
  | [] => 0
  | d :: rest => 1 + countDepChanges d rest

/-- Total search requests issued by the bootstrap: one per seed keyword
per effect run. -/
def bootstrapSearchesIssued (renders : List SearchCallbackDeps) : Nat :=
  seedKeywords.length * autoLoadEffectRuns renders

/-- Filter-criteria setter: the minimum-discount slider. -/
def setMinDiscount (s : AppState) (v : Int) : AppState :=
  { s with minDiscount := v }

/-- Filter-criteria setter: the coupon-code requirement checkbox. -/
def setShowOnlyWithCodes (s : AppState) (b : Bool) : AppState :=
  { s with showOnlyWithCodes := b }

/-- Filter-criteria setter: the display cap slider. -/
def setMaxResults (s : AppState) (n : Nat) : AppState :=
  { s with maxResults := n }

/-- The per-deal rewritten-text patch (App.js lines 842-846):
`prev.map(d =&gt; d.id === deal.id ? {...d, rewritten: data.rewritten} : d)`. -/
def applyRewrite (s : AppState) (dealId : Nat) (text : String) : AppState :=
  { s with deals := s.deals.map (fun d =>
      if d.id = dealId then { d with rewritten := text } else d) }

/-- The derived filtered view of a state. -/
def filteredOf (s : AppState) : List Deal :=
  filteredDeals s.deals s.minDiscount s.showOnlyWithCodes

/-- The derived display view of a state. -/
def displayedOf (s : AppState) : List Deal :=
  displayedDeals (filteredOf s) s.maxResults

/-- The spec's description of the identity-key selector, written from its
words: the first non-empty value of an ordered list of accessor results. -/
def specFirstNonEmpty : List String → String
  | [] => ""
  | a :: rest => if a = "" then specFirstNonEmpty rest else a

/-- Well-formed timer bookkeeping: every remembered, cancelled or fired
timeout id was actually scheduled. -/
def timersWF (h : HighlightTracker) : Bool :=
  (h.timerRef.toList ++ h.cancelled ++ h.fired).all
    (fun t => decide (t < h.nextTimerId))

/-- Strip the patched rewritten-text field, for stating that the rewrite
patch touches nothing else. -/
def eraseRewritten (d : Deal) : Deal := { d with rewritten := "" }

/-- Outcomes the fresh-search path treats as failures: a thrown fetch, a
non-success transport status, or a parsed body with `success` unset. -/
def isFreshFailure : FetchOutcome → Prop
  | .throws _ => True
  | .response ok success _ _ => ok = false ∨ success = false

/-- Outcomes the pagination path treats as failures: a thrown fetch or a
parsed body with `success` unset — the transport status is never read
there. -/
def isPageFailure : FetchOutcome → Prop
  | .throws _ => True
  | .response _ success _ _ => success = false

/-- Concrete deals and states used by the concrete-input theorems. -/
def dealA1 : Deal := { asin := "A1" }

/-- A second concrete deal with a distinct ASIN. -/
def dealA2 : Deal := { asin := "A2" }

/-- A state holding one deal, mid-session, ready for a pagination fetch. -/
def exhaustionState : AppState := { deals := [dealA1], lastKeyword := "x" }

/-- A successful page-2 response whose only deal duplicates the
collection. -/
def exhaustionOutcome : FetchOutcome := .response true true [dealA1] ""

/-- A state used to exercise the pagination failure path. -/
def pageThrowState : AppState := { deals := [dealA1], lastKeyword := "kw" }

/-- Dependency tuple of the search callback before the user touches the
minimum-discount slider. -/
def depsBefore : SearchCallbackDeps :=
  { minDiscount := 20, apiBase := "b", dedupeKey := "asin",
    debugPromotions := false }

/-- The same dependency tuple after the slider moves to 30. -/
def depsAfter : SearchCallbackDeps :=
  { minDiscount := 30, apiBase := "b", dedupeKey := "asin",
    debugPromotions := false }

/-- The highlight tracker after two marks in close succession:
mark of ids 1 and 2, then mark of id 3 before the first timer fires. -/
def markTwice : HighlightTracker := markNew (markNew {} [1, 2]) [3]

/- ------------------------------------------------------------------ -/
/- Helper lemmas                                                      -/
/- ------------------------------------------------------------------ -/

/-- Membership characterization of the dedup filter. -/
theorem mem_uniqueNew {k : String} {prev cs : List Deal} {c : Deal} :
    c ∈ uniqueNew k prev cs ↔
      c ∈ cs ∧ dealKey k c ≠ "" ∧ dealKey k c ∉ existingKeys k prev := by
  simp [uniqueNew, List.mem_filter, List.elem_iff, and_assoc]

/-- The dedup filter, rephrased as a propositional filter. -/
theorem uniqueNew_eq_filter (k : String) (prev cs : List Deal) :
    uniqueNew k prev cs = cs.filter (fun c =>
      decide (dealKey k c ≠ "" ∧ dealKey k c ∉ existingKeys k prev)) := by
  unfold uniqueNew
  apply List.filter_congr
  intro c _
  by_cases h : dealKey k c = "" <;> simp [h, List.elem_iff]

/-- The dedup filter preserves the relative order of the candidates. -/
theorem uniqueNew_sublist (k : String) (prev cs : List Deal) :
    (uniqueNew k prev cs).Sublist cs := List.filter_sublist cs

/-- Assigning local ids does not change any identity key. -/
theorem assignIds_map_dealKey (k : String) (n : Nat) (ds : List Deal) :
    (assignIds n ds).map (dealKey k) = ds.map (dealKey k) := by
  unfold assignIds
  rw [List.map_map]
  have h : (dealKey k ∘ fun p : Nat × Deal => { p.2 with id := n + p.1 })
      = dealKey k ∘ Prod.snd := by
    funext p; rfl
  rw [h, ← List.map_map, List.enum_map_snd]

/-- Keys of the surviving batch avoid the keys of the prior collection. -/
theorem uniqueNew_keys_disjoint (k : String) (prev cs : List Deal) :
    (existingKeys k (uniqueNew k prev cs)).Disjoint (existingKeys k prev) := by
  intro x hx hx2
  simp only [existingKeys, List.mem_map] at hx
  obtain ⟨c, hc, rfl⟩ := hx
  exact (mem_uniqueNew.mp hc).2.2 hx2

/-- Both merge orders preserve key uniqueness when the prior collection
and the batch each have pairwise-distinct keys. -/
theorem nodup_merge (k : String) (prev cs : List Deal)
    (h1 : (existingKeys k prev).Nodup) (h2 : (existingKeys k cs).Nodup) :
    (existingKeys k (uniqueNew k prev cs ++ prev)).Nodup ∧
    (existingKeys k (prev ++ uniqueNew k prev cs)).Nodup := by
  have hu : (existingKeys k (uniqueNew k prev cs)).Nodup :=
    h2.sublist ((uniqueNew_sublist k prev cs).map (dealKey k))
  have hd := uniqueNew_keys_disjoint k prev cs
  constructor
  · rw [existingKeys, List.map_append, List.nodup_append]
    exact ⟨hu, h1, hd⟩
  · rw [existingKeys, List.map_append, List.nodup_append]
    exact ⟨h1, hu, hd.symm⟩

/-- After one merge, every candidate with a usable key is represented. -/
theorem key_mem_merged (k : String) (prev cs : List Deal) (c : Deal)
    (hc : c ∈ cs) (hne : dealKey k c ≠ "") :
    dealKey k c ∈ existingKeys k (uniqueNew k prev cs) ∨
    dealKey k c ∈ existingKeys k prev := by
  by_cases hmem : dealKey k c ∈ existingKeys k prev
  · exact Or.inr hmem
  · refine Or.inl ?_
    simp only [existingKeys]
    exact List.mem_map_of_mem _ (mem_uniqueNew.mpr ⟨hc, hne, hmem⟩)

/-- Replaying the same candidates against the merged collection leaves
nothing, in either merge order. -/
theorem uniqueNew_after_merge (k : String) (prev cs : List Deal) :
    uniqueNew k (uniqueNew k prev cs ++ prev) cs = [] ∧
    uniqueNew k (prev ++ uniqueNew k prev cs) cs = [] := by
  constructor
  · rw [uniqueNew_eq_filter, List.filter_eq_nil_iff]
    intro c hc
    simp only [decide_eq_true_eq, not_and, not_not]
    intro hne
    simp only [existingKeys, List.map_append, List.mem_append]
    rcases key_mem_merged k prev cs c hc hne with h | h
    · exact Or.inl h
    · exact Or.inr h
  · rw [uniqueNew_eq_filter, List.filter_eq_nil_iff]
    intro c hc
    simp only [decide_eq_true_eq, not_and, not_not]
    intro hne
    simp only [existingKeys, List.map_append, List.mem_append]
    rcases key_mem_merged k prev cs c hc hne with h | h
    · exact Or.inr h
    · exact Or.inl h

/-- A string disjunction with a non-empty right operand is non-empty. -/
theorem strOr_ne_empty {a b : String} (hb : b ≠ "") : strOr a b ≠ "" := by
  unfold strOr
  split <;> simp_all

/-- Prefixing a non-empty string keeps the result non-empty. -/
theorem append_ne_empty_left {a b : String} (ha : a ≠ "") : a ++ b ≠ "" := by
  intro hab
  apply ha
  have h := congrArg String.length hab
  rw [String.length_append] at h
  have ha0 : a.length = 0 := by
    have h0 : String.length "" = 0 := rfl
    omega
  cases a with
  | mk data =>
    cases data with
    | nil => rfl
    | cons c cs => simp [String.length] at ha0

/-- Bool-level characterization of a fireable timeout. -/
theorem canFire_iff {h : HighlightTracker} {t : Nat} :
    canFire h t = true ↔ t < h.nextTimerId ∧ t ∉ h.cancelled ∧ t ∉ h.fired := by
  simp [canFire, List.elem_iff, and_assoc]

/-- Closed form of a non-empty mark. -/
theorem markNew_eq (h : HighlightTracker) (ids : List Nat) (hne : ids ≠ []) :
    markNew h ids = { lastAddedIds := ids,
                      timerRef := some h.nextTimerId,
                      nextTimerId := h.nextTimerId + 1,
                      cancelled := h.timerRef.toList ++ h.cancelled,
                      fired := h.fired } := by
  have hlen : 0 < ids.length := List.length_pos.mpr hne
  cases href : h.timerRef with
  | none => simp [markNew, hlen, href]
  | some t0 => simp [markNew, hlen, href]

/-- Unpacked bounds of well-formed timer bookkeeping. -/
theorem timersWF_bounds {h : HighlightTracker} (hwf : timersWF h = true) :
    (∀ t ∈ h.cancelled, t < h.nextTimerId) ∧
    (∀ t ∈ h.fired, t < h.nextTimerId) ∧
    (∀ t, h.timerRef = some t → t < h.nextTimerId) := by
  simp only [timersWF, List.all_eq_true, List.mem_append, decide_eq_true_eq] at hwf
  refine ⟨fun t ht => hwf t (Or.inl (Or.inr ht)),
          fun t ht => hwf t (Or.inr ht),
          fun t ht => hwf t (Or.inl (Or.inl ?_))⟩
  simp [ht]

/-- A failing fresh search produces exactly the prior state with the
loading flag cleared and a non-empty error message, and the page-1
request was issued. -/
theorem fresh_fail_result (s : AppState) (kw : String) (hkw : jsTrim kw ≠ "") :
    ∀ o, isFreshFailure o → ∃ msg, msg ≠ "" ∧
      searchProductsWithKeyword s kw o
        = ({ s with loading := false, error := msg },
           some { keyword := jsTrim kw, minDiscount := s.minDiscount, page := 1,
                  pageSize := 30, debugPromotions := s.debugPromotions }) := by
  intro o hf
  cases o with
  | throws m =>
      refine ⟨"❌ Cannot connect to server: " ++ m,
        append_ne_empty_left (by decide), ?_⟩
      unfold searchProductsWithKeyword
      rw [if_neg hkw]
  | response ok success ds e =>
      rcases hf with hok | hsucc
      · subst hok
        refine ⟨"❌ " ++ strOr e "Unknown error from server",
          append_ne_empty_left (by decide), ?_⟩
        unfold searchProductsWithKeyword
        rw [if_neg hkw]
        rfl
      · subst hsucc
        cases ok with
        | false =>
            refine ⟨"❌ " ++ strOr e "Unknown error from server",
              append_ne_empty_left (by decide), ?_⟩
            unfold searchProductsWithKeyword
            rw [if_neg hkw]
            rfl
        | true =>
            refine ⟨"❌ " ++ strOr e "Failed to fetch deals",
              append_ne_empty_left (by decide), ?_⟩
            unfold searchProductsWithKeyword
            rw [if_neg hkw]
            rfl

/-- A failing pagination fetch changes nothing but the in-flight flag. -/
theorem page_fail_result (s : AppState) (hl : s.isLoadingMore = false) :
    ∀ o, isPageFailure o →
      (loadMoreFromServer s o).1 = { s with isLoadingMore := false } := by
  intro o hp
  by_cases hm : s.noMorePages
  · have hres : loadMoreFromServer s o = (s, none) := by
      simp [loadMoreFromServer, hm]
    rw [hres]
    show s = { s with isLoadingMore := false }
    rw [← hl]
  · cases o with
    | throws msg =>
        simp [loadMoreFromServer, hl, hm]
    | response ok success ds e =>
        cases hp
        simp [loadMoreFromServer, hl, hm]

/- ------------------------------------------------------------------ -/
/- Claim theorems                                                     -/
/- ------------------------------------------------------------------ -/

/-- C1, counterexample: a successful page-2 fetch whose single deal
duplicates the collection sets the exhausted flag and leaves the
collection alone, but — contrary to the claim — increments the page
number from 1 to 2: the success path runs `setServerPage(nextPage)`
unconditionally (App.js line 185). -/
theorem C1_counterexample :
    (loadMoreFromServer exhaustionState exhaustionOutcome).1.noMorePages = true
    ∧ (loadMoreFromServer exhaustionState exhaustionOutcome).1.serverPage = 2
    ∧ exhaustionState.serverPage = 1
    ∧ (loadMoreFromServer exhaustionState exhaustionOutcome).1.deals
        = exhaustionState.deals := by decide

/-- C1, amended: a successful pagination fetch with zero unique results
sets the exhausted flag, leaves the collection and highlight state
unchanged, increments the page number (harmlessly, since the guard now
blocks), and every subsequent fetch-next-page call is a no-op that
issues no request. -/
theorem C1_exhaustion_amended (s : AppState) (ds : List Deal) (e : String)
    (ok : Bool) (hl : s.isLoadingMore = false) (hm : s.noMorePages = false)
    (hdup : uniqueNew s.dedupeKey s.deals (assignIds s.nextLocalId ds) = []) :
    (loadMoreFromServer s (.response ok true ds e)).1.noMorePages = true
    ∧ (loadMoreFromServer s (.response ok true ds e)).1.serverPage = s.serverPage + 1
    ∧ (loadMoreFromServer s (.response ok true ds e)).1.deals = s.deals
    ∧ (loadMoreFromServer s (.response ok true ds e)).1.highlight = s.highlight
    ∧ (∀ o2 : FetchOutcome,
        loadMoreFromServer (loadMoreFromServer s (.response ok true ds e)).1 o2
          = ((loadMoreFromServer s (.response ok true ds e)).1, none)) := by
  have hbody : (loadMoreFromServer s (.response ok true ds e)).1 =
      { s with deals := s.deals, noMorePages := true,
               serverPage := s.serverPage + 1,
               nextLocalId := s.nextLocalId + ds.length,
               isLoadingMore := false } := by
    simp only [loadMoreFromServer, hl, hm, Bool.or_self, if_false, hdup,
      List.length_nil, List.map_nil, markNew, List.append_nil, if_pos]
    rfl
  rw [hbody]
  refine ⟨rfl, rfl, rfl, rfl, ?_⟩
  intro o2
  simp [loadMoreFromServer]

/-- C1, witness: the amended theorem applied at the concrete exhaustion
scenario. -/
theorem C1_witness :
    (loadMoreFromServer exhaustionState (.response true true [dealA1] "")).1.noMorePages
      = true :=
  (C1_exhaustion_amended exhaustionState [dealA1] "" true rfl rfl (by decide)).1

/-- C2, counterexample: two candidates sharing the key A2 against an
empty collection both survive the merge — the result has two A2 entries,
not one, because the key lookup is a static snapshot of the existing
collection and is never grown while candidates are scanned. -/
theorem C2_counterexample :
    uniqueNew "asin" [] [dealA2, dealA2] = [dealA2, dealA2]
    ∧ (uniqueNew "asin" [] [dealA2, dealA2]).length ≠ 1 := by decide

/-- C2, amended: the deduplication filter tests every candidate against
the static snapshot of the existing collection's keys, so two candidates
in one batch that share a fresh key both survive; only keys already in
the existing collection are suppressed. -/
theorem C2_static_snapshot (k : String) (prev : List Deal) (c : Deal)
    (h1 : dealKey k c ≠ "") (h2 : dealKey k c ∉ existingKeys k prev) :
    uniqueNew k prev [c, c] = [c, c]
    ∧ (∀ cs, uniqueNew k prev cs = cs.filter (fun d =>
        decide (dealKey k d ≠ "" ∧ dealKey k d ∉ existingKeys k prev))) := by
  constructor
  · rw [uniqueNew_eq_filter]
    simp [h1, h2]
  · intro cs
    exact uniqueNew_eq_filter k prev cs

/-- C2, witness: the amended theorem applied at the concrete A2 batch. -/
theorem C2_witness :
    uniqueNew "asin" [] [dealA2, dealA2] = [dealA2, dealA2] :=
  (C2_static_snapshot "asin" [] dealA2 (by decide) (by decide)).1

/-- C3, counterexample: a fresh search returning the same ASIN twice in
one batch merges both copies into the empty collection, so the raw
collection holds two deals with identity key A2 — the claimed uniqueness
invariant does not survive a batch with internal duplicates. -/
theorem C3_counterexample :
    ¬ (existingKeys "asin"
        ((searchProductsWithKeyword {} "kw"
          (.response true true [dealA2, dealA2] "")).1.deals)).Nodup := by decide

/-- C3, amended: both merge paths preserve key uniqueness provided the
incoming batch itself has pairwise-distinct keys; and in every case no
merged candidate duplicates a key already present in the collection. -/
theorem C3_uniqueness_amended (s : AppState) (kw : String) (ds : List Deal)
    (e : String) (ok : Bool)
    (hn1 : (existingKeys s.dedupeKey s.deals).Nodup)
    (hn2 : (existingKeys s.dedupeKey ds).Nodup)
    (hkw : jsTrim kw ≠ "") (hl : s.isLoadingMore = false)
    (hm : s.noMorePages = false) :
    (existingKeys s.dedupeKey
        ((searchProductsWithKeyword s kw (.response true true ds e)).1.deals)).Nodup
    ∧ (existingKeys s.dedupeKey
        ((loadMoreFromServer s (.response ok true ds e)).1.deals)).Nodup
    ∧ (∀ c ∈ uniqueNew s.dedupeKey s.deals ds,
        dealKey s.dedupeKey c ∉ existingKeys s.dedupeKey s.deals) := by
  have h2 : (existingKeys s.dedupeKey (assignIds s.nextLocalId ds)).Nodup := by
    show ((assignIds s.nextLocalId ds).map (dealKey s.dedupeKey)).Nodup
    rw [assignIds_map_dealKey]
    exact hn2
  refine ⟨?_, ?_, fun c hc => (mem_uniqueNew.mp hc).2.2⟩
  · simp only [searchProductsWithKeyword, hkw, if_false, Bool.not_true, if_neg hkw]
    exact (nodup_merge s.dedupeKey s.deals (assignIds s.nextLocalId ds) hn1 h2).1
  · simp only [loadMoreFromServer, hl, hm, Bool.or_self, if_false]
    exact (nodup_merge s.dedupeKey s.deals (assignIds s.nextLocalId ds) hn1 h2).2

/-- C3, witness: the amended theorem applied at a fresh search of one
deal into the initial state. -/
theorem C3_witness :
    (existingKeys "asin" ((searchProductsWithKeyword {} "kw"
        (.response true true [dealA1] "")).1.deals)).Nodup :=
  (C3_uniqueness_amended {} "kw" [dealA1] "" true (by decide) (by decide)
    (by decide) rfl rfl).1

/-- C4, counterexample: when the pagination fetch throws, the controller
logs to the console only — the user-visible error message stays empty
and the whole state is unchanged except for the cleared in-flight flag,
contradicting the claim that the error is surfaced on both paths. -/
theorem C4_counterexample :
    (loadMoreFromServer pageThrowState (.throws "boom")).1.error = ""
    ∧ (loadMoreFromServer pageThrowState (.throws "boom")).1
        = { pageThrowState with isLoadingMore := false } := by decide

/-- C4, amended: every failing fetch merges nothing and leaves page and
exhaustion unchanged while clearing only the in-flight flag; the
fresh-search path additionally surfaces a non-empty user-visible error
message, but the pagination path sets no message (and never inspects the
transport status — its failures are a thrown fetch or a parsed body with
success unset). -/
theorem C4_failure_amended (s : AppState) (kw : String) (o : FetchOutcome)
    (hkw : jsTrim kw ≠ "") (hl : s.isLoadingMore = false) :
    (isFreshFailure o →
      (searchProductsWithKeyword s kw o).1.deals = s.deals
      ∧ (searchProductsWithKeyword s kw o).1.serverPage = s.serverPage
      ∧ (searchProductsWithKeyword s kw o).1.noMorePages = s.noMorePages
      ∧ (searchProductsWithKeyword s kw o).1.loading = false
      ∧ (searchProductsWithKeyword s kw o).1.error ≠ "")
    ∧ (isPageFailure o →
      (loadMoreFromServer s o).1 = { s with isLoadingMore := false }) := by
  constructor
  · intro hf
    obtain ⟨msg, hmsg, heq⟩ := fresh_fail_result s kw hkw o hf
    rw [heq]
    exact ⟨rfl, rfl, rfl, rfl, hmsg⟩
  · exact page_fail_result s hl o

/-- C4, witness: the amended theorem applied at a thrown fetch on both
paths. -/
theorem C4_witness :
    (searchProductsWithKeyword pageThrowState "kw" (.throws "boom")).1.error ≠ ""
    ∧ (loadMoreFromServer pageThrowState (.throws "boom")).1
        = { pageThrowState with isLoadingMore := false } :=
  ⟨((C4_failure_amended pageThrowState "kw" (.throws "boom")
      (by decide) rfl).1 trivial).2.2.2.2,
   (C4_failure_amended pageThrowState "kw" (.throws "boom")
      (by decide) rfl).2 trivial⟩

/-- C5: the auto-load effect depends on the identity of
`searchProductsWithKeyword`, which is memoised over the minimum
discount (among others); a render sequence in which the user moves the
discount slider from 20 to 30 therefore runs the bootstrap twice,
issuing six seed-keyword searches instead of three — the sequence does
not run exactly once per controller lifetime, contradicting both the
claim and the code's own AUTO-LOAD DEALS ON STARTUP comment. A
dependency-stable render sequence does run it exactly once. -/
theorem C5_bootstrap_reruns :
    autoLoadEffectRuns [depsBefore, depsAfter] = 2
    ∧ autoLoadEffectRuns [depsBefore, depsAfter] ≠ 1
    ∧ bootstrapSearchesIssued [depsBefore, depsAfter] = 6
    ∧ autoLoadEffectRuns [depsBefore] = 1
    ∧ autoLoadEffectRuns [depsBefore, depsBefore, depsBefore] = 1 := by decide

/-- C6: the deduplication filter keeps exactly the candidates whose
selected key — the first non-empty value among the configured key field,
asin, url, title — is non-empty and not among the keys of the existing
collection, preserving candidate order; a candidate with all four key
fields empty is dropped; and the concrete cross-page example holds. -/
theorem C6_dedupe_exact (k : String) (prev cs : List Deal) :
    uniqueNew k prev cs = cs.filter (fun c =>
        decide (dealKey k c ≠ "" ∧ dealKey k c ∉ existingKeys k prev))
    ∧ (uniqueNew k prev cs).Sublist cs
    ∧ (∀ d, dealKey k d = specFirstNonEmpty [fieldOf d k, d.asin, d.url, d.title])
    ∧ (∀ d, fieldOf d k = "" → d.asin = "" → d.url = "" → d.title = "" →
        d ∉ uniqueNew k prev cs)
    ∧ uniqueNew "asin" [dealA1] [dealA1, dealA2] = [dealA2] := by
  refine ⟨uniqueNew_eq_filter k prev cs, uniqueNew_sublist k prev cs, ?_, ?_,
    by decide⟩
  · intro d
    simp only [dealKey, strOr, specFirstNonEmpty]
    split_ifs <;> simp_all
  · intro d h1 h2 h3 h4 hmem
    exact (mem_uniqueNew.mp hmem).2.1 (by simp [dealKey, strOr, h1, h2, h3, h4])

/-- C6, witness: the theorem applied at the spec's concrete example. -/
theorem C6_witness :
    uniqueNew "asin" [dealA1] [dealA1, dealA2] = [dealA2] :=
  (C6_dedupe_exact "asin" [dealA1] [dealA1, dealA2]).2.2.2.2

/-- C7: the deduplicating merge is idempotent — replaying the same
candidate batch against the collection updated by the first merge yields
an empty unique set, in both the append (pagination) and prepend
(fresh-search) merge orders. -/
theorem C7_merge_idempotent (k : String) (prev cs : List Deal) :
    uniqueNew k (uniqueNew k prev cs ++ prev) cs = []
    ∧ uniqueNew k (prev ++ uniqueNew k prev cs) cs = [] := by
  constructor
  · rw [uniqueNew_eq_filter, List.filter_eq_nil_iff]
    intro c hc
    simp only [decide_eq_true_eq, not_and, not_not]
    intro hne
    simp only [existingKeys, List.map_append, List.mem_append]
    rcases key_mem_merged k prev cs c hc hne with h | h
    · exact Or.inl h
    · exact Or.inr h
  · rw [uniqueNew_eq_filter, List.filter_eq_nil_iff]
    intro c hc
    simp only [decide_eq_true_eq, not_and, not_not]
    intro hne
    simp only [existingKeys, List.map_append, List.mem_append]
    rcases key_mem_merged k prev cs c hc hne with h | h
    · exact Or.inr h
    · exact Or.inl h

/-- C7, witness: the theorem applied at a concrete batch. -/
theorem C7_witness :
    uniqueNew "asin" (uniqueNew "asin" [dealA1] [dealA1, dealA2] ++ [dealA1])
        [dealA1, dealA2] = [] :=
  (C7_merge_idempotent "asin" [dealA1] [dealA1, dealA2]).1

/-- C8: the filtered view keeps exactly the deals meeting the discount
bound and the coupon requirement, in collection order; its length is
antitone in the minimum discount, and the displayed prefix length is
monotone in the display cap. -/
theorem C8_view_monotone (ds : List Deal) (rc : Bool) (m1 m2 : Int) (r1 r2 : Nat)
    (hm : m1 ≤ m2) (hr : r1 ≤ r2) :
    (filteredDeals ds m2 rc).length ≤ (filteredDeals ds m1 rc).length
    ∧ (displayedDeals (filteredDeals ds m1 rc) r1).length ≤
        (displayedDeals (filteredDeals ds m1 rc) r2).length
    ∧ filteredDeals ds m1 rc = ds.filter (fun d =>
        decide (m1 ≤ d.discount) && (!rc || !(getDealCode d == "")))
    ∧ displayedDeals (filteredDeals ds m1 rc) r1
        = (filteredDeals ds m1 rc).take r1 := by
  have hchar : ∀ m : Int, filteredDeals ds m rc = ds.filter (fun d =>
      decide (m ≤ d.discount) && (!rc || !(getDealCode d == ""))) := by
    intro m
    unfold filteredDeals
    apply List.filter_congr
    intro d _
    by_cases h1 : d.discount < m
    · simp [h1, not_le.mpr h1]
    · by_cases h2 : rc
      · by_cases h3 : getDealCode d = "" <;> simp [h1, h2, h3, not_lt.mp h1]
      · simp [h1, h2, not_lt.mp h1]
  refine ⟨?_, ?_, hchar m1, rfl⟩
  · rw [hchar m1, hchar m2]
    apply List.Sublist.length_le
    apply List.monotone_filter_right
    intro d hd
    simp only [Bool.and_eq_true, decide_eq_true_eq] at hd ⊢
    exact ⟨le_trans hm hd.1, hd.2⟩
  · simp only [displayedDeals, List.length_take]
    omega

/-- C8, witness: the theorem applied at a singleton collection. -/
theorem C8_witness :
    (filteredDeals [dealA1] 5 false).length
      ≤ (filteredDeals [dealA1] 0 false).length :=
  (C8_view_monotone [dealA1] false 0 5 0 1 (by decide) (by decide)).1

/-- C9: a non-empty mark replaces the highlight set with exactly the new
batch, cancels the pending timer, schedules one fresh timer whose expiry
clears the set; an empty mark changes nothing; the at-most-one-pending
invariant is preserved by marking and by expiry; and in the concrete
two-marks-in-succession scenario only one timer can ever fire, after
which the first batch's ids are no longer highlighted. -/
theorem C9_highlight_tracker (h : HighlightTracker) (ids : List Nat)
    (hne : ids ≠ []) (hinv : AtMostOnePending h) (hwf : timersWF h = true) :
    (markNew h ids).lastAddedIds = ids
    ∧ (markNew h ids).timerRef = some h.nextTimerId
    ∧ (markNew h ids).nextTimerId = h.nextTimerId + 1
    ∧ (∀ t, h.timerRef = some t → canFire (markNew h ids) t = false)
    ∧ canFire (markNew h ids) h.nextTimerId = true
    ∧ (fireTimer (markNew h ids) h.nextTimerId).lastAddedIds = []
    ∧ markNew h [] = h
    ∧ AtMostOnePending (markNew h ids)
    ∧ (∀ t, AtMostOnePending (fireTimer h t))
    ∧ (List.range markTwice.nextTimerId).filter (canFire markTwice) = [1]
    ∧ (fireTimer markTwice 1).lastAddedIds = []
    ∧ isHighlighted (fireTimer markTwice 1) 1 = false
    ∧ (List.range (fireTimer markTwice 1).nextTimerId).filter
        (canFire (fireTimer markTwice 1)) = [] := by
  obtain ⟨hcb, hfb, hrb⟩ := timersWF_bounds hwf
  have heq := markNew_eq h ids hne
  have hfresh : canFire (markNew h ids) h.nextTimerId = true := by
    rw [heq, canFire_iff]
    refine ⟨Nat.lt_succ_self _, ?_, ?_⟩
    · intro hmem
      rcases List.mem_append.mp hmem with hm | hm
      · cases href : h.timerRef with
        | none => rw [href] at hm; simp at hm
        | some t0 =>
            rw [href] at hm
            simp only [Option.toList, List.mem_singleton] at hm
            subst hm
            exact absurd (hrb _ href) (lt_irrefl _)
      · exact absurd (hcb _ hm) (lt_irrefl _)
    · intro hmem
      exact absurd (hfb _ hmem) (lt_irrefl _)
  refine ⟨by rw [heq], by rw [heq], by rw [heq], ?_, hfresh, ?_,
    by simp [markNew], ?_, ?_,
    by decide, by decide, by decide, by decide⟩
  · intro t ht
    rw [heq]
    apply Bool.not_eq_true _ |>.mp
    intro hcf
    rw [canFire_iff] at hcf
    exact hcf.2.1 (List.mem_append.mpr (Or.inl (by simp [ht])))
  · simp only [fireTimer, hfresh, if_pos]
  · intro t ht hcf
    rw [heq] at ht hcf ⊢
    simp only [List.mem_range] at ht
    rcases Nat.lt_succ_iff_lt_or_eq.mp ht with hlt | hteq
    · exfalso
      rw [canFire_iff] at hcf
      obtain ⟨_, hnc, hnf⟩ := hcf
      have hch : canFire h t = true := by
        rw [canFire_iff]
        exact ⟨hlt, fun hm => hnc (List.mem_append.mpr (Or.inr hm)), hnf⟩
      have href := hinv t (List.mem_range.mpr hlt) hch
      apply hnc
      refine List.mem_append.mpr (Or.inl ?_)
      simp [href]
    · subst hteq; rfl
  · intro t t2 ht2 hcf2
    by_cases hcf : canFire h t = true
    · simp only [fireTimer, hcf, if_pos] at hcf2 ht2 ⊢
      rw [canFire_iff] at hcf2
      obtain ⟨h1, h2, h3⟩ := hcf2
      have hc2 : canFire h t2 = true := by
        rw [canFire_iff]
        exact ⟨h1, h2, fun hm => h3 (List.mem_cons_of_mem _ hm)⟩
      exact hinv t2 (by simpa using ht2) hc2
    · have hfix : fireTimer h t = h := by simp [fireTimer, hcf]
      rw [hfix] at hcf2 ht2 ⊢
      exact hinv t2 (by simpa using ht2) hcf2

/-- C9, witness: the theorem applied at the empty tracker and a
singleton batch. -/
theorem C9_witness :
    (markNew ({} : HighlightTracker) [5]).lastAddedIds = [5] :=
  (C9_highlight_tracker {} [5] (by decide) (by decide) (by decide)).1

/-- C10: changing any filter criterion leaves the raw deals collection
untouched; the filtered and displayed views recomputed after such a
change are fresh sub-sequences derived from the same collection; and the
rewritten-text patch changes only the rewritten field, preserving every
other field and the collection's length. -/
theorem C10_view_frame (s : AppState) (v : Int) (b : Bool) (n : Nat)
    (dealId : Nat) (text : String) :
    (setMinDiscount s v).deals = s.deals
    ∧ (setShowOnlyWithCodes s b).deals = s.deals
    ∧ (setMaxResults s n).deals = s.deals
    ∧ filteredOf (setMinDiscount s v) = filteredDeals s.deals v s.showOnlyWithCodes
    ∧ filteredOf (setShowOnlyWithCodes s b) = filteredDeals s.deals s.minDiscount b
    ∧ displayedOf (setMaxResults s n) = (filteredOf s).take n
    ∧ (filteredOf s).Sublist s.deals
    ∧ (displayedOf s).Sublist (filteredOf s)
    ∧ (applyRewrite s dealId text).deals.map eraseRewritten
        = s.deals.map eraseRewritten
    ∧ (applyRewrite s dealId text).deals.length = s.deals.length := by
  refine ⟨rfl, rfl, rfl, rfl, rfl, rfl,
    List.filter_sublist s.deals, List.take_sublist _ _, ?_, ?_⟩
  · show (s.deals.map fun d =>
        if d.id = dealId then { d with rewritten := text } else d).map eraseRewritten
      = s.deals.map eraseRewritten
    rw [List.map_map]
    apply List.map_congr_left
    intro d _
    by_cases hd : d.id = dealId <;> simp [hd, eraseRewritten]
  · show (s.deals.map fun d =>
        if d.id = dealId then { d with rewritten := text } else d).length
      = s.deals.length
    rw [List.length_map]

/-- C10, witness: the theorem applied at the initial state. -/
theorem C10_witness :
    (setMinDiscount ({} : AppState) 50).deals = ({} : AppState).deals :=
  (C10_view_frame {} 50 true 10 0 "t").1

end AmazonDeals
